import Mathlib

/-!
Shallow embedding of the `pipeguard` named-pipe IPC channel
(`src/utils.rs`, `src/client.rs`; the server accept loop of `src/server.rs`
is modelled from the spec where noted).

Byte sequences are `List Nat` (each entry a byte value), machine integers are
`Nat` with explicit `% 2^32` where Rust's `as u32` truncates, fallible Rust
functions returning `Result<T, NamedPipeError>` become `Except NamedPipeError T`,
and the OS environment (process-path lookup, peer-PID lookup) is passed in
explicitly as a `World` record.
-/

namespace PipeGuard

/-- The `std::io::ErrorKind` values that appear in the sources:
`InvalidData` (crypto / UTF-8 / JSON data errors), `PermissionDenied`
(identity failures), `UnexpectedEof` (`read_exact` hitting end of stream)
and `Other`. -/
inductive IoErrorKind where
  | invalidData
  | permissionDenied
  | unexpectedEof
  | other
  deriving DecidableEq

/-- `NamedPipeError` as used throughout `src/client.rs` and `src/utils.rs`
(its defining module `src/error.rs` is not in the sources; the two variants
below are the ones those files construct and match on): an I/O error carrying
a kind and a message, and the caller-misuse `NotConnected` error. -/
inductive NamedPipeError where
  | io : IoErrorKind → String → NamedPipeError
  | notConnected : NamedPipeError
  deriving DecidableEq

/-- The ChaCha20Poly1305 AEAD primitive from the `chacha20poly1305` crate,
abstracted over its key (the source builds one cipher object per key with
`ChaCha20Poly1305::new`): a deterministic `encrypt` (seal, appending the
authentication tag) and `decrypt` (open, verifying the tag), together with the
AEAD correctness contract the crate guarantees: decrypting an encryption under
the same nonce recovers the message. -/
structure AEADCipher where
  encrypt : List Nat → List Nat → List Nat
  decrypt : List Nat → List Nat → Option (List Nat)
  decrypt_encrypt : ∀ nonce msg, decrypt nonce (encrypt nonce msg) = some msg

/-- `src/utils.rs` `encrypt_message`: encrypt `data` and prepend the nonce.
The source draws a fresh random 96-bit (12-byte) nonce from `OsRng`; the draw
is externalized as the `nonce` argument. The crate's `encrypt` only fails for
absurd plaintext sizes, so the sealed output is total here and the function
always returns `ok` (the source's error arm maps a failure to an
`InvalidData` I/O error). -/
def encrypt_message (cipher : AEADCipher) (nonce data : List Nat) :
    Except NamedPipeError (List Nat) :=
  Except.ok (nonce ++ cipher.encrypt nonce data)

/-- `src/utils.rs` `decrypt_message`: expects nonce prepended. Rejects inputs
shorter than 12 bytes, splits nonce / ciphertext at 12, opens; an
authentication failure maps to an `InvalidData` I/O error (the source formats
the crate error into the message; the constant part is kept). -/
def decrypt_message (cipher : AEADCipher) (data : List Nat) :
    Except NamedPipeError (List Nat) :=
  if data.length < 12 then
    Except.error (NamedPipeError.io IoErrorKind.invalidData "Encrypted message too short")
  else
    let nonce_bytes := data.take 12
    let ciphertext := data.drop 12
    match cipher.decrypt nonce_bytes ciphertext with
    | some plaintext => Except.ok plaintext
    | none => Except.error (NamedPipeError.io IoErrorKind.invalidData "Decryption failed")

/-- Rust `u8::to_ascii_lowercase`: maps ASCII `A`..`Z` (65..90) to lowercase
by adding 32 and leaves every other byte unchanged. -/
def to_ascii_lowercase (b : Nat) : Nat :=
  if 65 ≤ b ∧ b ≤ 90 then b + 32 else b

/-- Rust `eq_ignore_ascii_case` on byte strings (what
`str::eq_ignore_ascii_case` performs on the underlying bytes): equal lengths
and pointwise equality after ASCII lowercasing. -/
def eq_ignore_ascii_case : List Nat → List Nat → Bool
  | [], [] => true
  | a :: xs, b :: ys =>
    (to_ascii_lowercase a == to_ascii_lowercase b) && eq_ignore_ascii_case xs ys
  | _, _ => false

/-- The OS environment the identity checks consult: `get_process_path`
(PID to executable path, fallible: `PermissionDenied` when the process cannot
be opened, `Other` when the image-name query fails), the current process's
executable path (`std::env::current_exe().unwrap()`, assumed to succeed, spec
§7), and `get_server_pid` for the pipe handle the client holds. Paths are
byte strings. -/
structure World where
  processPath : Nat → Except NamedPipeError (List Nat)
  currentExe : List Nat
  serverPid : Except NamedPipeError Nat

/-- `src/utils.rs` `verify_same_path`: resolve the peer's executable path,
compare case-insensitively (ASCII) with the current process's executable
path; a resolution failure propagates, a mismatch is a `PermissionDenied`
I/O error. -/
def verify_same_path (w : World) (other_pid : Nat) : Except NamedPipeError Unit :=
  match w.processPath other_pid with
  | Except.error e => Except.error e
  | Except.ok other_path =>
    if !eq_ignore_ascii_case other_path w.currentExe then
      Except.error (NamedPipeError.io IoErrorKind.permissionDenied "Process path does not match")
    else
      Except.ok ()

/-- `src/client.rs` `NamedPipeClientStruct`: the transport handle is reduced
to presence (`Option Unit`), since its reads and writes are modelled as
explicit wire byte lists passed to `send_bytes` / `receive_bytes`. -/
structure NamedPipeClientStruct where
  client : Option Unit
  pipe_name : String
  cipher : Option AEADCipher
  enforce_same_path_server : Bool

/-- `src/client.rs` `is_connected`: whether a transport is stored. -/
def is_connected (st : NamedPipeClientStruct) : Bool :=
  st.client.isSome

/-- `u32::to_le_bytes`: the four little-endian bytes of a value below
`2 ^ 32`. -/
def u32_to_le_bytes (n : Nat) : List Nat :=
  [n % 256, n / 2 ^ 8 % 256, n / 2 ^ 16 % 256, n / 2 ^ 24 % 256]

/-- `u32::from_le_bytes` on a 4-byte little-endian list. -/
def u32_from_le_bytes : List Nat → Nat
  | [b0, b1, b2, b3] => b0 + 2 ^ 8 * b1 + 2 ^ 16 * b2 + 2 ^ 24 * b3
  | _ => 0

/-- `src/client.rs` `send_bytes`: fails with `NotConnected` when no transport
is set; otherwise encrypts when a cipher is configured, writes the 4-byte
little-endian length bytes of `len as u32` (hence `% 2 ^ 32`) followed by the
message, and flushes. The returned value is the byte sequence written to the
wire; `nonce` is the random nonce `encrypt_message` draws. -/
def send_bytes (st : NamedPipeClientStruct) (nonce data : List Nat) :
    Except NamedPipeError (List Nat) :=
  match st.client with
  | none => Except.error NamedPipeError.notConnected
  | some _ =>
    match st.cipher with
    | some cipher =>
      match encrypt_message cipher nonce data with
      | Except.error e => Except.error e
      | Except.ok encrypted_message =>
        Except.ok (u32_to_le_bytes (encrypted_message.length % 2 ^ 32) ++ encrypted_message)
    | none =>
      Except.ok (u32_to_le_bytes (data.length % 2 ^ 32) ++ data)

/-- `src/client.rs` `receive_bytes`: fails with `NotConnected` when no
transport is set; reads exactly 4 length bytes and then exactly that many
payload bytes from the incoming stream `wire` (`read_exact` past the end of
the stream is the `UnexpectedEof` I/O error), then decrypts when a cipher is
configured. -/
def receive_bytes (st : NamedPipeClientStruct) (wire : List Nat) :
    Except NamedPipeError (List Nat) :=
  match st.client with
  | none => Except.error NamedPipeError.notConnected
  | some _ =>
    if wire.length < 4 then
      Except.error (NamedPipeError.io IoErrorKind.unexpectedEof "failed to fill whole buffer")
    else
      let len := u32_from_le_bytes (wire.take 4)
      let rest := wire.drop 4
      if rest.length < len then
        Except.error (NamedPipeError.io IoErrorKind.unexpectedEof "failed to fill whole buffer")
      else
        let buffer := rest.take len
        match st.cipher with
        | some cipher => decrypt_message cipher buffer
        | none => Except.ok buffer

/-- `src/client.rs` `verify_server_path`: immediately `Ok` when enforcement
is disabled; otherwise requires a transport (`NotConnected` when absent),
resolves the server PID from the handle and compares executable paths. -/
def verify_server_path (st : NamedPipeClientStruct) (w : World) :
    Except NamedPipeError Unit :=
  if !st.enforce_same_path_server then
    Except.ok ()
  else
    match st.client with
    | none => Except.error NamedPipeError.notConnected
    | some _ =>
      match w.serverPid with
      | Except.error e => Except.error e
      | Except.ok server_pid => verify_same_path w server_pid

/-- `src/client.rs` `connect`: open the pipe (`openResult` is the outcome of
`ClientOptions::open`, already mapped to an I/O error on failure), store the
transport in `self.client`, then run `verify_server_path`; an error there is
returned but the stored transport is not cleared. Returns the call's result
paired with the client state after the call. -/
def connect (st : NamedPipeClientStruct) (openResult : Except NamedPipeError Unit)
    (w : World) : Except NamedPipeError Unit × NamedPipeClientStruct :=
  match openResult with
  | Except.error e => (Except.error e, st)
  | Except.ok _ =>
    let st1 := { st with client := some () }
    match verify_server_path st1 w with
    | Except.error e => (Except.error e, st1)
    | Except.ok _ => (Except.ok (), st1)

/-- `src/client.rs` `disconnect`: drops the transport. -/
def disconnect (st : NamedPipeClientStruct) : NamedPipeClientStruct :=
  { st with client := none }

/-- A byte in the UTF-8 continuation range `0x80..=0xBF`. -/
def utf8_cont (b : Nat) : Bool :=
  128 ≤ b && b ≤ 191

/-- UTF-8 validity of a byte sequence: exactly the sequences Rust's
`core::str` validation (behind `String::from_utf8`) accepts, per RFC 3629 —
no overlong forms, no surrogates, nothing above U+10FFFF. -/
def utf8_valid : List Nat → Bool
  | [] => true
  | b :: rest =>
    if b ≤ 0x7F then utf8_valid rest
    else if 0xC2 ≤ b && b ≤ 0xDF then
      match rest with
      | c1 :: rest2 => utf8_cont c1 && utf8_valid rest2
      | _ => false
    else if 0xE0 ≤ b && b ≤ 0xEF then
      match rest with
      | c1 :: c2 :: rest2 =>
        (if b = 0xE0 then 160 ≤ c1 && c1 ≤ 191
         else if b = 0xED then 128 ≤ c1 && c1 ≤ 159
         else utf8_cont c1) && utf8_cont c2 && utf8_valid rest2
      | _ => false
    else if 0xF0 ≤ b && b ≤ 0xF4 then
      match rest with
      | c1 :: c2 :: c3 :: rest2 =>
        (if b = 0xF0 then 144 ≤ c1 && c1 ≤ 191
         else if b = 0xF4 then 128 ≤ c1 && c1 ≤ 143
         else utf8_cont c1) && utf8_cont c2 && utf8_cont c3 && utf8_valid rest2
      | _ => false
    else false

/-- `src/client.rs` `receive_string`: `receive_bytes`, then
`String::from_utf8`, which on success returns the very same bytes (now known
valid UTF-8) and on failure maps to the `InvalidData` I/O error. The string
is kept as its byte sequence. -/
def receive_string (st : NamedPipeClientStruct) (wire : List Nat) :
    Except NamedPipeError (List Nat) :=
  match receive_bytes st wire with
  | Except.error e => Except.error e
  | Except.ok data =>
    if utf8_valid data then Except.ok data
    else Except.error (NamedPipeError.io IoErrorKind.invalidData "Invalid UTF-8 string")

/-- The spec's Frame Codec write (spec §4.1): the 4-byte little-endian length
bytes of the payload length as `u32`, then the payload. -/
def write_frame (payload : List Nat) : List Nat :=
  u32_to_le_bytes (payload.length % 2 ^ 32) ++ payload

/-- The spec's Frame Codec read (spec §4.1): 4 length bytes, then exactly
that many payload bytes; `none` when the stream ends early. -/
def read_frame (wire : List Nat) : Option (List Nat) :=
  if wire.length < 4 then none
  else
    let len := u32_from_le_bytes (wire.take 4)
    let rest := wire.drop 4
    if rest.length < len then none else some (rest.take len)

/-- Modelled from the spec: `src/server.rs` (the server accept loop and its
connection-id counter) is not among the sources; per spec §3 and §4.4 the
connection id is a process-wide unsigned counter, "assigned once at accept
time, monotonically increasing across the server's lifetime, never reused",
incremented atomically at each accept. The server state is that counter. -/
structure ServerState where
  nextId : Nat

/-- Modelled from the spec: one accept atomically assigns the current counter
value as the new connection's id and increments the counter (spec §4.4); the
increment being a single atomic step, every interleaving of concurrent
accepts is equal to some serial order of these steps. -/
def acceptOne (s : ServerState) : Nat × ServerState :=
  (s.nextId, ⟨s.nextId + 1⟩)

/-- Modelled from the spec: the connection ids assigned by `n` consecutive
accepts starting from server state `s`, in accept order. -/
def acceptIds (s : ServerState) : Nat → List Nat
  | 0 => []
  | n + 1 => (acceptOne s).1 :: acceptIds (acceptOne s).2 n

/-- Modelled from the spec: the server state after `n` accepts. -/
def serverAfter (s : ServerState) : Nat → ServerState
  | 0 => s
  | n + 1 => serverAfter (acceptOne s).2 n

/-- A concrete toy instance of the AEAD interface, used only to evaluate the
abstract theorems at concrete inputs: `encrypt` prepends a one-byte checksum tag
over nonce and message, `decrypt` recomputes and checks it. -/
def demoCipher : AEADCipher where
  encrypt nonce msg := ((msg.sum + nonce.sum) % 256) :: msg
  decrypt nonce c :=
    match c with
    | [] => none
    | tag :: body => if tag = (body.sum + nonce.sum) % 256 then some body else none
  decrypt_encrypt nonce msg := by simp

/-- A connected client with no cipher configured. -/
def plainClient : NamedPipeClientStruct :=
  ⟨some (), "\\\\.\\pipe\\demo", none, false⟩

/-- A connected client using the toy cipher. -/
def encClient : NamedPipeClientStruct :=
  ⟨some (), "\\\\.\\pipe\\demo", some demoCipher, false⟩

/-- A not-yet-connected client with server-path enforcement enabled. -/
def enforcingClient : NamedPipeClientStruct :=
  ⟨none, "\\\\.\\pipe\\demo", none, true⟩

/-- A not-yet-connected client with server-path enforcement disabled. -/
def relaxedClient : NamedPipeClientStruct :=
  ⟨none, "\\\\.\\pipe\\demo", none, false⟩

/-- A concrete world: PID 1 resolves to `AbC`, PID 2 to `xyz`, any other PID
fails to resolve; the current executable path is `aBc`. -/
def c4World : World where
  processPath pid :=
    if pid = 1 then Except.ok [65, 98, 67]
    else if pid = 2 then Except.ok [120, 121, 122]
    else Except.error (NamedPipeError.io IoErrorKind.permissionDenied "Cannot open process")
  currentExe := [97, 66, 99]
  serverPid := Except.ok 1

/-- A concrete world whose server executable path (`xyz`, via PID 2) differs
from the current executable path (`aBc`). -/
def mismatchWorld : World where
  processPath pid :=
    if pid = 2 then Except.ok [120, 121, 122] else Except.ok [97, 66, 99]
  currentExe := [97, 66, 99]
  serverPid := Except.ok 2

/-- C1: decrypting the result of encrypting any byte sequence under the same
cipher returns exactly that sequence, for any 12-byte nonce. -/
theorem c1_encrypt_decrypt_roundtrip (cipher : AEADCipher) (nonce data : List Nat)
    (hn : nonce.length = 12) :
    (encrypt_message cipher nonce data).bind (decrypt_message cipher) =
      Except.ok data := by
  have hlen : (nonce ++ cipher.encrypt nonce data).length = 12 + (cipher.encrypt nonce data).length := by
    simp [hn]
  have htake : (nonce ++ cipher.encrypt nonce data).take 12 = nonce := by
    rw [← hn]; exact List.take_left nonce _
  have hdrop : (nonce ++ cipher.encrypt nonce data).drop 12 = cipher.encrypt nonce data := by
    rw [← hn]; exact List.drop_left nonce _
  simp only [encrypt_message, Except.bind, decrypt_message, hlen, htake, hdrop]
  rw [if_neg (by omega)]
  simp [cipher.decrypt_encrypt]

/-- C1 witness: the round trip evaluated on the toy cipher at a concrete
nonce and message. -/
theorem c1_encrypt_decrypt_roundtrip_witness :
    (List.replicate 12 0).length = 12 ∧
      (encrypt_message demoCipher (List.replicate 12 0) [1, 2, 3]).bind
        (decrypt_message demoCipher) = Except.ok [1, 2, 3] :=
  ⟨by decide, c1_encrypt_decrypt_roundtrip demoCipher (List.replicate 12 0) [1, 2, 3] (by decide)⟩

theorem eq_ignore_ascii_case_iff_map (xs ys : List Nat) :
    eq_ignore_ascii_case xs ys = true ↔
      xs.map to_ascii_lowercase = ys.map to_ascii_lowercase := by
  induction xs generalizing ys with
  | nil => cases ys <;> simp [eq_ignore_ascii_case]
  | cons a xs ih =>
    cases ys with
    | nil => simp [eq_ignore_ascii_case]
    | cons b ys => simp [eq_ignore_ascii_case, ih]

/-- C4: `verify_same_path` resolves the peer's executable path and compares
it ASCII-case-insensitively against the current process's executable path:
any failure to resolve the peer's path propagates as an error, any pair of
paths equal up to letter case is accepted, and any mismatch is a
`PermissionDenied` error — fail closed, never silently allowed. -/
theorem c4_verify_same_path_fail_closed (w : World) (other_pid : Nat) :
    (∀ e, w.processPath other_pid = Except.error e →
      verify_same_path w other_pid = Except.error e) ∧
    (∀ other_path, w.processPath other_pid = Except.ok other_path →
      other_path.map to_ascii_lowercase = w.currentExe.map to_ascii_lowercase →
      verify_same_path w other_pid = Except.ok ()) ∧
    (∀ other_path, w.processPath other_pid = Except.ok other_path →
      other_path.map to_ascii_lowercase ≠ w.currentExe.map to_ascii_lowercase →
      verify_same_path w other_pid =
        Except.error (NamedPipeError.io IoErrorKind.permissionDenied
          "Process path does not match")) := by
  refine ⟨?_, ?_, ?_⟩
  · intro e he
    simp [verify_same_path, he]
  · intro p hp hcase
    have h : eq_ignore_ascii_case p w.currentExe = true :=
      (eq_ignore_ascii_case_iff_map p w.currentExe).mpr hcase
    simp [verify_same_path, hp, h]
  · intro p hp hcase
    have h : eq_ignore_ascii_case p w.currentExe = false := by
      cases h : eq_ignore_ascii_case p w.currentExe
      · rfl
      · exact absurd ((eq_ignore_ascii_case_iff_map p w.currentExe).mp h) hcase
    simp [verify_same_path, hp, h]

/-- C4 witness: in `c4World` (current executable `aBc`) PID 1's path `AbC`
is accepted, PID 2's path `xyz` is rejected with `PermissionDenied`, and the
unresolvable PID 3 propagates its resolution error. -/
theorem c4_verify_same_path_fail_closed_witness :
    verify_same_path c4World 1 = Except.ok () ∧
    verify_same_path c4World 2 =
      Except.error (NamedPipeError.io IoErrorKind.permissionDenied
        "Process path does not match") ∧
    verify_same_path c4World 3 =
      Except.error (NamedPipeError.io IoErrorKind.permissionDenied "Cannot open process") :=
  ⟨(c4_verify_same_path_fail_closed c4World 1).2.1 [65, 98, 67] rfl (by decide),
    (c4_verify_same_path_fail_closed c4World 2).2.2 [120, 121, 122] rfl (by decide),
    (c4_verify_same_path_fail_closed c4World 3).1 _ rfl⟩

/-- C10: `verify_server_path` checks the enforcement flag before the
connection state: with enforcement disabled it returns `Ok` even with no
transport, while with enforcement enabled and no transport it returns the
`NotConnected` error. -/
theorem c10_verify_server_path_flag_before_state (st : NamedPipeClientStruct) (w : World) :
    (st.enforce_same_path_server = false → verify_server_path st w = Except.ok ()) ∧
    (st.enforce_same_path_server = true → st.client = none →
      verify_server_path st w = Except.error NamedPipeError.notConnected) := by
  constructor
  · intro h
    simp [verify_server_path, h]
  · intro h hc
    simp [verify_server_path, h, hc]

/-- C10 witness: a disconnected client with enforcement off verifies `Ok`,
one with enforcement on gets `NotConnected`. -/
theorem c10_verify_server_path_flag_before_state_witness :
    verify_server_path relaxedClient c4World = Except.ok () ∧
    verify_server_path enforcingClient c4World = Except.error NamedPipeError.notConnected :=
  ⟨(c10_verify_server_path_flag_before_state relaxedClient c4World).1 rfl,
    (c10_verify_server_path_flag_before_state enforcingClient c4World).2 rfl rfl⟩

/-- C7: after `disconnect` the client reports not connected, every send and
every receive fails with the `NotConnected` error, and `disconnect` is
idempotent: a second call leaves the same state. -/
theorem c7_disconnect_behavior (st : NamedPipeClientStruct) (nonce data wire : List Nat) :
    is_connected (disconnect st) = false ∧
    send_bytes (disconnect st) nonce data = Except.error NamedPipeError.notConnected ∧
    receive_bytes (disconnect st) wire = Except.error NamedPipeError.notConnected ∧
    disconnect (disconnect st) = disconnect st :=
  ⟨rfl, rfl, rfl, rfl⟩

/-- C5: `decrypt_message` fails on every input shorter than 12 bytes; it
fails on every input of at least 12 bytes whose ciphertext part does not
authenticate; every failure it can produce carries the one generic
`InvalidData` kind; and a failure comes with no plaintext at all. -/
theorem c5_decrypt_message_failures (cipher : AEADCipher) (data : List Nat) :
    (data.length < 12 →
      decrypt_message cipher data =
        Except.error (NamedPipeError.io IoErrorKind.invalidData "Encrypted message too short")) ∧
    (12 ≤ data.length →
      cipher.decrypt (data.take 12) (data.drop 12) = none →
      decrypt_message cipher data =
        Except.error (NamedPipeError.io IoErrorKind.invalidData "Decryption failed")) ∧
    (∀ e, decrypt_message cipher data = Except.error e →
      ∃ msg, e = NamedPipeError.io IoErrorKind.invalidData msg) := by
  refine ⟨?_, ?_, ?_⟩
  · intro h
    simp [decrypt_message, h]
  · intro h hnone
    simp [decrypt_message, Nat.not_lt.mpr h, hnone]
  · intro e he
    unfold decrypt_message at he
    by_cases hl : data.length < 12
    · rw [if_pos hl] at he
      exact ⟨"Encrypted message too short", (Except.error.inj he).symm⟩
    · rw [if_neg hl] at he
      rcases hd : cipher.decrypt (data.take 12) (data.drop 12) with _ | pt
      · simp only [hd] at he
        exact ⟨"Decryption failed", (Except.error.inj he).symm⟩
      · simp only [hd] at he
        cases he

/-- C5 witness: the 1-byte input is rejected as too short; a 14-byte input
whose tag byte is wrong for the toy cipher is rejected as a decryption
failure; both with the `InvalidData` kind. -/
theorem c5_decrypt_message_failures_witness :
    ([0] : List Nat).length < 12 ∧
    decrypt_message demoCipher [0] =
      Except.error (NamedPipeError.io IoErrorKind.invalidData "Encrypted message too short") ∧
    12 ≤ (List.replicate 12 0 ++ [1, 0] : List Nat).length ∧
    decrypt_message demoCipher (List.replicate 12 0 ++ [1, 0]) =
      Except.error (NamedPipeError.io IoErrorKind.invalidData "Decryption failed") :=
  ⟨by decide, (c5_decrypt_message_failures demoCipher [0]).1 (by decide),
    by decide,
    (c5_decrypt_message_failures demoCipher (List.replicate 12 0 ++ [1, 0])).2.1
      (by decide) (by decide)⟩

theorem decrypt_message_ne_notConnected (cipher : AEADCipher) (data : List Nat) :
    decrypt_message cipher data ≠ Except.error NamedPipeError.notConnected := by
  unfold decrypt_message
  by_cases hl : data.length < 12
  · simp [hl]
  · simp only [if_neg hl]
    rcases hd : cipher.decrypt (List.take 12 data) (List.drop 12 data) with _ | pt <;>
      simp [hd]

theorem receive_bytes_connected_ne_notConnected (st : NamedPipeClientStruct)
    (wire : List Nat) (hc : st.client = some ()) :
    receive_bytes st wire ≠ Except.error NamedPipeError.notConnected := by
  obtain ⟨cl, pn, ci, en⟩ := st
  simp only at hc
  subst hc
  unfold receive_bytes
  simp only
  split
  · simp
  · split
    · simp
    · cases ci with
      | none => simp
      | some cipher => exact decrypt_message_ne_notConnected cipher _

/-- C2 counterexample: enforcement enabled, the pipe opens, and the server
path (`xyz`) mismatches the current executable (`aBc`): `connect` returns
the identity error, but the client still holds the transport — after the
failed connect `is_connected` is `true` (not `false` as claimed) and neither
a send nor a receive fails with `NotConnected`. -/
theorem c2_counterexample :
    (connect enforcingClient (Except.ok ()) mismatchWorld).1 =
      Except.error (NamedPipeError.io IoErrorKind.permissionDenied
        "Process path does not match") ∧
    is_connected (connect enforcingClient (Except.ok ()) mismatchWorld).2 = true ∧
    send_bytes (connect enforcingClient (Except.ok ()) mismatchWorld).2 [] [1] ≠
      Except.error NamedPipeError.notConnected ∧
    receive_bytes (connect enforcingClient (Except.ok ()) mismatchWorld).2
        [1, 0, 0, 0, 255] ≠
      Except.error NamedPipeError.notConnected := by
  refine ⟨rfl, rfl, ?_, ?_⟩
  · intro h
    exact Except.noConfusion h
  · intro h
    exact Except.noConfusion h

/-- C2 (amended): if server-identity enforcement is enabled and the path
verification after a successful open fails, `connect` returns that identity
error, but the transport is left in place: the post-state keeps the stored
transport, `is_connected` is `true` on it, and neither a send nor a receive
on it fails with `NotConnected`. -/
theorem c2_connect_failed_verification_keeps_transport
    (st : NamedPipeClientStruct) (w : World) (e : NamedPipeError)
    (hv : verify_server_path { st with client := some () } w = Except.error e) :
    connect st (Except.ok ()) w = (Except.error e, { st with client := some () }) ∧
    is_connected { st with client := some () } = true ∧
    (∀ nonce data, send_bytes { st with client := some () } nonce data ≠
      Except.error NamedPipeError.notConnected) ∧
    (∀ wire, receive_bytes { st with client := some () } wire ≠
      Except.error NamedPipeError.notConnected) := by
  refine ⟨?_, rfl, ?_, ?_⟩
  · simp [connect, hv]
  · intro nonce data h
    obtain ⟨cl, pn, ci, en⟩ := st
    cases ci with
    | none => exact Except.noConfusion h
    | some cipher =>
      simp [send_bytes, encrypt_message] at h
  · intro wire
    exact receive_bytes_connected_ne_notConnected _ wire rfl

/-- C2 amended-claim witness: the amended behavior evaluated on the concrete
enforcing client and mismatching world. -/
theorem c2_connect_failed_verification_keeps_transport_witness :
    connect enforcingClient (Except.ok ()) mismatchWorld =
      (Except.error (NamedPipeError.io IoErrorKind.permissionDenied
        "Process path does not match"), { enforcingClient with client := some () }) ∧
    is_connected { enforcingClient with client := some () } = true ∧
    (∀ nonce data, send_bytes { enforcingClient with client := some () } nonce data ≠
      Except.error NamedPipeError.notConnected) ∧
    (∀ wire, receive_bytes { enforcingClient with client := some () } wire ≠
      Except.error NamedPipeError.notConnected) :=
  c2_connect_failed_verification_keeps_transport enforcingClient mismatchWorld _ rfl

theorem u32_le_roundtrip (n : Nat) :
    u32_from_le_bytes (u32_to_le_bytes (n % 2 ^ 32)) = n % 2 ^ 32 := by
  simp only [u32_to_le_bytes, u32_from_le_bytes]
  omega

theorem length_u32_to_le_bytes (x : Nat) : (u32_to_le_bytes x).length = 4 :=
  rfl

theorem take_four_of_u32_append (x : Nat) (l : List Nat) :
    (u32_to_le_bytes x ++ l).take 4 = u32_to_le_bytes x := by
  rw [← length_u32_to_le_bytes x]
  exact List.take_left _ _

theorem drop_four_of_u32_append (x : Nat) (l : List Nat) :
    (u32_to_le_bytes x ++ l).drop 4 = l := by
  rw [← length_u32_to_le_bytes x]
  exact List.drop_left _ _

/-- C3 counterexample: on a `2 ^ 32`-byte payload (connected client, no
cipher) the four length bytes `send_bytes` writes decode to `0`, while
`2 ^ 32` payload bytes follow them on the wire: `len as u32` truncates, so
the claimed equality does not hold for every payload. -/
theorem c3_counterexample :
    send_bytes plainClient [] (List.replicate (2 ^ 32) 0) =
      Except.ok (u32_to_le_bytes 0 ++ List.replicate (2 ^ 32) 0) ∧
    u32_from_le_bytes ((u32_to_le_bytes 0 ++ List.replicate (2 ^ 32) (0 : Nat)).take 4) = 0 ∧
    ((u32_to_le_bytes 0 ++ List.replicate (2 ^ 32) (0 : Nat)).drop 4).length = 2 ^ 32 := by
  refine ⟨?_, ?_, ?_⟩
  · show Except.ok (u32_to_le_bytes ((List.replicate (2 ^ 32) (0 : Nat)).length % 2 ^ 32) ++
      List.replicate (2 ^ 32) 0) = _
    rw [List.length_replicate, Nat.mod_self]
  · rw [take_four_of_u32_append]
    rfl
  · rw [drop_four_of_u32_append, List.length_replicate]

/-- C3 (amended): `send_bytes` on a connected client writes a 4-byte
little-endian length value equal to the on-wire payload's length reduced
modulo `2 ^ 32` (Rust's `len as u32`), followed by that payload, then
flushes; the length value equals the payload length exactly when the payload
is shorter than `2 ^ 32` bytes — no other maximum is enforced. -/
theorem c3_length_prefixed_framing (st : NamedPipeClientStruct) (nonce data : List Nat)
    (hc : st.client = some ()) :
    ∃ msg, send_bytes st nonce data =
        Except.ok (u32_to_le_bytes (msg.length % 2 ^ 32) ++ msg) ∧
      (st.cipher = none → msg = data) ∧
      (∀ cipher, st.cipher = some cipher → msg = nonce ++ cipher.encrypt nonce data) ∧
      u32_from_le_bytes ((u32_to_le_bytes (msg.length % 2 ^ 32) ++ msg).take 4) =
        msg.length % 2 ^ 32 ∧
      (msg.length < 2 ^ 32 →
        u32_from_le_bytes ((u32_to_le_bytes (msg.length % 2 ^ 32) ++ msg).take 4) =
          msg.length) := by
  obtain ⟨cl, pn, ci, en⟩ := st
  simp only at hc
  subst hc
  cases ci with
  | none =>
    refine ⟨data, rfl, fun _ => rfl, ?_, ?_, ?_⟩
    · intro cipher h
      cases h
    · rw [take_four_of_u32_append]
      exact u32_le_roundtrip data.length
    · intro hlt
      rw [take_four_of_u32_append, u32_le_roundtrip, Nat.mod_eq_of_lt hlt]
  | some cipher =>
    refine ⟨nonce ++ cipher.encrypt nonce data, rfl, ?_, ?_, ?_, ?_⟩
    · intro h
      cases h
    · intro c hc
      cases hc
      rfl
    · rw [take_four_of_u32_append]
      exact u32_le_roundtrip _
    · intro hlt
      rw [take_four_of_u32_append, u32_le_roundtrip, Nat.mod_eq_of_lt hlt]

/-- C3 amended-claim witness: the framing evaluated on the plain client at a
two-byte payload. -/
theorem c3_length_prefixed_framing_witness :
    ∃ msg, send_bytes plainClient [] [7, 8] =
        Except.ok (u32_to_le_bytes (msg.length % 2 ^ 32) ++ msg) ∧
      (plainClient.cipher = none → msg = [7, 8]) ∧
      (∀ cipher, plainClient.cipher = some cipher → msg = [] ++ cipher.encrypt [] [7, 8]) ∧
      u32_from_le_bytes ((u32_to_le_bytes (msg.length % 2 ^ 32) ++ msg).take 4) =
        msg.length % 2 ^ 32 ∧
      (msg.length < 2 ^ 32 →
        u32_from_le_bytes ((u32_to_le_bytes (msg.length % 2 ^ 32) ++ msg).take 4) =
          msg.length) :=
  c3_length_prefixed_framing plainClient [] [7, 8] rfl

theorem read_frame_spec (wire payload : List Nat) (h : read_frame wire = some payload) :
    ¬ wire.length < 4 ∧
      ¬ (wire.drop 4).length < u32_from_le_bytes (wire.take 4) ∧
      payload = (wire.drop 4).take (u32_from_le_bytes (wire.take 4)) := by
  unfold read_frame at h
  by_cases h4 : wire.length < 4
  · rw [if_pos h4] at h
    cases h
  · rw [if_neg h4] at h
    by_cases hl : (wire.drop 4).length < u32_from_le_bytes (wire.take 4)
    · simp only [if_pos hl] at h
      cases h
    · simp only [if_neg hl] at h
      exact ⟨h4, hl, (Option.some.inj h).symm⟩

/-- C6: send and receive mirror each other, parameterized by the optional
cipher: with a cipher configured, `send_bytes` writes the frame of the
encrypted message and `receive_bytes` is a frame read followed by
`decrypt_message`; with no cipher, `send_bytes` writes the frame of the
plaintext and `receive_bytes` returns the frame payload unchanged. -/
theorem c6_send_receive_mirror (st : NamedPipeClientStruct)
    (nonce data wire payload : List Nat) (hc : st.client = some ()) :
    (∀ cipher, st.cipher = some cipher →
      (∀ em, encrypt_message cipher nonce data = Except.ok em →
        send_bytes st nonce data = Except.ok (write_frame em)) ∧
      (read_frame wire = some payload →
        receive_bytes st wire = decrypt_message cipher payload)) ∧
    (st.cipher = none →
      send_bytes st nonce data = Except.ok (write_frame data) ∧
      (read_frame wire = some payload →
        receive_bytes st wire = Except.ok payload)) := by
  obtain ⟨cl, pn, ci, en⟩ := st
  simp only at hc
  subst hc
  constructor
  · intro cipher hci
    simp only at hci
    subst hci
    constructor
    · intro em hem
      cases hem
      rfl
    · intro hrf
      obtain ⟨h4, hl, hp⟩ := read_frame_spec wire payload hrf
      subst hp
      simp only [receive_bytes, if_neg h4, if_neg hl]
  · intro hci
    simp only at hci
    subst hci
    refine ⟨rfl, ?_⟩
    intro hrf
    obtain ⟨h4, hl, hp⟩ := read_frame_spec wire payload hrf
    subst hp
    simp only [receive_bytes, if_neg h4, if_neg hl]

/-- C6 witness: both directions evaluated on concrete clients: the encrypted
send frames the toy-cipher output, the encrypted receive decrypts the frame
payload `[7, 8]`, the plain send frames `[104, 105]` directly, and the plain
receive returns the frame payload unchanged. -/
theorem c6_send_receive_mirror_witness :
    send_bytes encClient (List.replicate 12 0) [104, 105] =
      Except.ok (write_frame (List.replicate 12 0 ++
        demoCipher.encrypt (List.replicate 12 0) [104, 105])) ∧
    receive_bytes encClient [2, 0, 0, 0, 7, 8] = decrypt_message demoCipher [7, 8] ∧
    send_bytes plainClient [] [104, 105] = Except.ok (write_frame [104, 105]) ∧
    receive_bytes plainClient [2, 0, 0, 0, 7, 8] = Except.ok [7, 8] :=
  ⟨((c6_send_receive_mirror encClient (List.replicate 12 0) [104, 105]
        [2, 0, 0, 0, 7, 8] [7, 8] rfl).1 demoCipher rfl).1 _ rfl,
    ((c6_send_receive_mirror encClient (List.replicate 12 0) [104, 105]
        [2, 0, 0, 0, 7, 8] [7, 8] rfl).1 demoCipher rfl).2 (by decide),
    ((c6_send_receive_mirror plainClient [] [104, 105]
        [2, 0, 0, 0, 7, 8] [7, 8] rfl).2 rfl).1,
    ((c6_send_receive_mirror plainClient [] [104, 105]
        [2, 0, 0, 0, 7, 8] [7, 8] rfl).2 rfl).2 (by decide)⟩

/-- C9: whenever the received byte sequence is not valid UTF-8,
`receive_string` fails with the `InvalidData` data error; and any string it
does return is the full received payload, valid UTF-8 — never a partial
decode. -/
theorem c9_receive_string_utf8 (st : NamedPipeClientStruct) (wire data : List Nat) :
    (receive_bytes st wire = Except.ok data → utf8_valid data = false →
      receive_string st wire =
        Except.error (NamedPipeError.io IoErrorKind.invalidData "Invalid UTF-8 string")) ∧
    (∀ s, receive_string st wire = Except.ok s →
      receive_bytes st wire = Except.ok s ∧ utf8_valid s = true) := by
  constructor
  · intro h hv
    simp [receive_string, h, hv]
  · intro s hs
    unfold receive_string at hs
    rcases hr : receive_bytes st wire with e | d
    · rw [hr] at hs
      cases hs
    · rw [hr] at hs
      by_cases hv : utf8_valid d = true
      · simp only [hv, if_true] at hs
        cases hs
        exact ⟨rfl, hv⟩
      · simp [hv] at hs

/-- C9 witness: the plain client receives the single byte `0xFF` (a frame of
length 1), which is not valid UTF-8, and `receive_string` returns the
`InvalidData` error. -/
theorem c9_receive_string_utf8_witness :
    receive_bytes plainClient [1, 0, 0, 0, 255] = Except.ok [255] ∧
    utf8_valid [255] = false ∧
    receive_string plainClient [1, 0, 0, 0, 255] =
      Except.error (NamedPipeError.io IoErrorKind.invalidData "Invalid UTF-8 string") :=
  ⟨rfl, rfl,
    (c9_receive_string_utf8 plainClient [1, 0, 0, 0, 255] [255]).1 rfl rfl⟩

theorem mem_acceptIds_ge (s : ServerState) (n : Nat) :
    ∀ j ∈ acceptIds s n, s.nextId ≤ j := by
  induction n generalizing s with
  | zero => intro j hj; cases hj
  | succ n ih =>
    intro j hj
    rcases List.mem_cons.mp hj with h | h
    · exact h ▸ Nat.le_refl _
    · exact Nat.le_of_lt (Nat.lt_of_lt_of_le (Nat.lt_succ_self _) (ih _ j h))

theorem mem_acceptIds_lt (s : ServerState) (n : Nat) :
    ∀ j ∈ acceptIds s n, j < s.nextId + n := by
  induction n generalizing s with
  | zero => intro j hj; cases hj
  | succ n ih =>
    intro j hj
    rcases List.mem_cons.mp hj with h | h
    · simp only [acceptOne] at h
      omega
    · have := ih _ j h
      simp only [acceptOne] at this
      omega

theorem serverAfter_nextId (s : ServerState) (n : Nat) :
    (serverAfter s n).nextId = s.nextId + n := by
  induction n generalizing s with
  | zero => rfl
  | succ n ih =>
    show (serverAfter (acceptOne s).2 n).nextId = _
    rw [ih]
    simp only [acceptOne]
    omega

/-- C8: the ids assigned by `n` accepts are strictly increasing in accept
order (hence pairwise distinct), and no id is ever reused over the server's
lifetime: every id assigned by any number of further accepts strictly
exceeds every id already assigned. Concurrent accepts serialize through the
atomic counter increment, so every interleaving equals one such serial
trace. -/
theorem c8_connection_ids_unique (s : ServerState) (n m : Nat) :
    List.Pairwise (· < ·) (acceptIds s n) ∧
    (∀ i ∈ acceptIds s n, ∀ j ∈ acceptIds (serverAfter s n) m, i < j) := by
  constructor
  · induction n generalizing s with
    | zero => exact List.Pairwise.nil
    | succ n ih =>
      refine List.Pairwise.cons ?_ (ih _)
      intro j hj
      exact Nat.lt_of_lt_of_le (Nat.lt_succ_self _) (mem_acceptIds_ge _ n j hj)
  · intro i hi j hj
    have h1 : i < s.nextId + n := mem_acceptIds_lt s n i hi
    have h2 : (serverAfter s n).nextId ≤ j := mem_acceptIds_ge _ m j hj
    rw [serverAfter_nextId] at h2
    omega

/-- C8 witness: three accepts from a fresh server assign `[0, 1, 2]`,
strictly increasing, and the id `0` is smaller than the id `3` assigned by a
later accept. -/
theorem c8_connection_ids_unique_witness :
    (0 : Nat) ∈ acceptIds ⟨0⟩ 3 ∧ (3 : Nat) ∈ acceptIds (serverAfter ⟨0⟩ 3) 2 ∧
    List.Pairwise (· < ·) (acceptIds ⟨0⟩ 3) ∧ (0 : Nat) < 3 :=
  ⟨by decide, by decide, (c8_connection_ids_unique ⟨0⟩ 3 2).1,
    (c8_connection_ids_unique ⟨0⟩ 3 2).2 0 (by decide) 3 (by decide)⟩

end PipeGuard
